import Mathlib

/-!
Shallow embedding of `src/wrappers/src/fdw/clickhouse_fdw/clickhouse_fdw.rs`:
the ClickHouse foreign-data-wrapper adapter (predicate deparser, scan/modify
state machine, cell/type mapping).  Host-side types (`Cell`, `Row`, `Qual`)
and their literal rendering live in the `supabase_wrappers` crate of the same
repository, outside the provided sources; those definitions are modelled from
the spec and are marked as such.  External-client values (`Block`, wire cells,
`Value`) are modelled at the interface boundary the adapter code touches.
Postgres error reporting (`elog` / `report_error`) is modelled by returning
the list of reported messages alongside each operation's result; `unwrap` on
missing configuration options is modelled by an `Option` result.
-/

/-- Modelled from the spec: the host typed cell (`supabase_wrappers::Cell`, not
under `src/`).  Variants at minimum Boolean, 64-bit signed integer, 64-bit
float and text; `Date` stands for the further host variants that have no wire
counterpart in this adapter.  Absence of a value is `Option Cell` at the `Row`
level, not a `Cell` variant. -/
inductive Cell where
  | Bool (b : Bool)
  | I64 (i : Int)
  | F64 (f : Float)
  | String (s : String)
  | Date (d : Int)

/-- A Row is an ordered sequence of (column name, optional cell) pairs. -/
abbrev Row := List (String × Option Cell)

/-- Escape the characters of a text literal for embedding in query text:
every quote character (U+0027) is doubled. -/
def escapeChars : List Char → List Char
  | [] => []
  | c :: cs =>
    if c = '\x27' then c :: c :: escapeChars cs else c :: escapeChars cs

/-- String version of `escapeChars`. -/
def escapeString (s : String) : String := String.mk (escapeChars s.toList)

/-- Checks that a character list contains no lone quote character: every
quote is immediately followed by a second quote that escapes it. -/
def quotesEscaped : List Char → Bool
  | [] => true
  | c :: cs =>
    if c = '\x27' then
      match cs with
      | [] => false
      | c2 :: cs2 => if c2 = '\x27' then quotesEscaped cs2 else false
    else quotesEscaped cs

/-- Inverse of `escapeChars`: collapses each doubled quote back to one. -/
def unescapeChars : List Char → List Char
  | [] => []
  | [c] => [c]
  | c1 :: c2 :: cs =>
    if c1 = '\x27' then
      if c2 = '\x27' then c1 :: unescapeChars cs else c1 :: unescapeChars (c2 :: cs)
    else c1 :: unescapeChars (c2 :: cs)

/-- Modelled from the spec: the Type Mapper's query-text form of a literal
(the `Display` of `supabase_wrappers::Cell`, not under `src/`): numeric
literals unquoted, text literals quoted with quote characters escaped. -/
def cellToQueryText : Cell → String
  | .Bool b => if b then "true" else "false"
  | .I64 i => toString i
  | .F64 f => toString f
  | .String s => "\x27" ++ escapeString s ++ "\x27"
  | .Date d => "\x27" ++ toString d ++ "\x27"

/-- Modelled from the spec: a pushable predicate is the triple
(column name, comparison operator, literal value). -/
structure Qual where
  field : String
  operator : String
  value : Cell

/-- Modelled from the spec: `Qual::deparse` (in `supabase_wrappers`, not under
`src/`) renders one predicate as `column operator literal`. -/
def Qual.deparse (q : Qual) : String :=
  q.field ++ " " ++ q.operator ++ " " ++ cellToQueryText q.value

/-- The deparser of `clickhouse_fdw.rs` (`fn deparse`).  The options map is an
association list; `options.get("table").unwrap()` is modelled by the `Option`
result (`none` = panic on a missing `table` option). -/
def deparse (quals : List Qual) (columns : List String)
    (options : List (String × String)) : Option String :=
  (List.lookup "table" options).map fun table =>
    let tgts := String.intercalate ", " columns
    if quals.isEmpty then
      "select " ++ tgts ++ " from " ++ table
    else
      let cond := String.intercalate " and " (quals.map Qual.deparse)
      "select " ++ tgts ++ " from " ++ table ++ " where " ++ cond

/-- One result cell as delivered by the external ClickHouse client, tagged by
its remote `SqlType`.  The four wire types the adapter reads carry their
payload; every other `SqlType` is collapsed into `unsupported` carrying the
type's display name (all the adapter looks at). -/
inductive WireCell where
  | u8 (v : Nat)
  | f64 (v : Float)
  | i64 (v : Int)
  | str (v : String)
  | unsupported (typeName : String)

/-- The external client's materialized result block: column names plus the
rows of wire cells.  Well-formed blocks (all this adapter ever receives) have
exactly `colNames.length` cells in every row. -/
structure Block where
  colNames : List String
  rows : List (List WireCell)

/-- Remote wire value built by `types::Value::from` when writing a cell. -/
inductive Value where
  | ofBool (b : Bool)
  | ofF64 (f : Float)
  | ofI64 (i : Int)
  | ofString (s : String)

/-- The adapter state (`struct ClickHouseFdw`).  The `ClientHandle` and the
runtime are external; only the presence of a client (`client.is_some()`)
affects the adapter's control flow, so it is kept as a `Bool`. -/
structure ClickHouseFdw where
  hasClient : Bool
  table : String
  rowid_col : String
  scan_blk : Option Block
  row_idx : Nat

/-- The `iter_scan` per-cell conversion: the `match sql_type` of
`clickhouse_fdw.rs` lines 108-133, with the unsupported-type arm producing
the reported error message. -/
def convertCell : WireCell → Except String Cell
  | .u8 v => .ok (.Bool (v != 0))
  | .f64 v => .ok (.F64 v)
  | .i64 v => .ok (.I64 v)
  | .str v => .ok (.String v)
  | .unsupported t => .error ("data type " ++ t ++ " is not supported")

/-- The `iter_scan` per-row loop: converts the (name, wire cell) pairs of the
current row left to right, pushing `(col_name, Some(cell))`, and stops at the
first unsupported cell with its error (the partial row is discarded). -/
def buildRow : List (String × WireCell) → Except String Row
  | [] => .ok []
  | (n, wc) :: rest =>
    match convertCell wc with
    | .error e => .error e
    | .ok c =>
      match buildRow rest with
      | .error e => .error e
      | .ok r => .ok ((n, some c) :: r)

/-- Whether every cell of a result row converts (no unsupported wire type). -/
def rowOk (names : List String) (cells : List WireCell) : Bool :=
  match buildRow (names.zip cells) with
  | .ok _ => true
  | .error _ => false

/-- The host Row a fully supported result row converts to. -/
def convRow (names : List String) (cells : List WireCell) : Row :=
  match buildRow (names.zip cells) with
  | .ok r => r
  | .error _ => []

/-- `ClickHouseFdw::begin_scan`: resets the read cursor to zero (all protocol
arguments are ignored by the source and omitted here). -/
def ClickHouseFdw.begin_scan (st : ClickHouseFdw) : ClickHouseFdw :=
  { st with row_idx := 0 }

/-- `ClickHouseFdw::end_scan`: drops the materialized block
(`self.scan_blk.take()`). -/
def ClickHouseFdw.end_scan (st : ClickHouseFdw) : ClickHouseFdw :=
  { st with scan_blk := none }

/-- `ClickHouseFdw::iter_scan`.  Returns the new state together with the
yielded row (`none` = Rust `None`, the end-of-data signal) and the list of
error messages reported during the call.  `rows.nth(self.row_idx)` on a fresh
row iterator is `List.get?`; cell access inside a well-formed block is the
zip of column names with the current row's cells. -/
def ClickHouseFdw.iter_scan (st : ClickHouseFdw) :
    ClickHouseFdw × (Option Row × List String) :=
  match st.scan_blk with
  | some block =>
    match block.rows[st.row_idx]? with
    | some cells =>
      match buildRow (block.colNames.zip cells) with
      | .ok r => ({ st with row_idx := st.row_idx + 1 }, (some r, []))
      | .error e => (st, (none, [e]))
    | none => (st, (none, []))
  | none => (st, (none, []))

/-- `ClickHouseFdw::get_rel_size`.  `runQuery` is the external
`client.query(sql).fetch_all()`; its failure message feeds the reported
`query failed` error.  The result pair is `(i64, i32)` in the source; the
`usize` casts are modelled on `Int` (counts far below the cast bounds).
`none` models the `unwrap` panic on a missing option. -/
def ClickHouseFdw.get_rel_size (st : ClickHouseFdw) (quals : List Qual)
    (columns : List String) (options : List (String × String))
    (runQuery : String → Except String Block) :
    Option (ClickHouseFdw × (Int × Int) × List String) :=
  if st.hasClient then
    match List.lookup "table" options, List.lookup "rowid_column" options with
    | some t, some r =>
      let st1 := { st with table := t, rowid_col := r }
      match deparse quals columns options with
      | some sql =>
        match runQuery sql with
        | .ok block =>
          some ({ st1 with scan_blk := some block },
            ((block.rows.length : Int), ((block.colNames.length : Int) * 8)), [])
        | .error err => some (st1, (0, 0), ["query failed: " ++ err])
      | none => none
    | _, _ => none
  else
    some (st, (0, 0), [])

/-- `ClickHouseFdw::begin_modify`: re-resolves the table binding from the
options (`none` models the `unwrap` panic on a missing option). -/
def ClickHouseFdw.begin_modify (st : ClickHouseFdw)
    (options : List (String × String)) : Option ClickHouseFdw :=
  match List.lookup "table" options, List.lookup "rowid_column" options with
  | some t, some r => some { st with table := t, rowid_col := r }
  | _, _ => none

/-- `ClickHouseFdw::end_modify`: no action. -/
def ClickHouseFdw.end_modify (st : ClickHouseFdw) : ClickHouseFdw := st

/-- The `insert` per-cell wire conversion (`types::Value::from`): only the
four variants with a wire counterpart convert. -/
def cellToValue : Cell → Option Value
  | .Bool b => some (.ofBool b)
  | .F64 f => some (.ofF64 f)
  | .I64 i => some (.ofI64 i)
  | .String s => some (.ofString s)
  | _ => none

/-- Modelled from the spec: the Debug-style rendering of a `Cell` used only
inside the `field type ... not supported` error message. -/
def cellDebugFmt : Cell → String
  | .Bool b => "Bool(" ++ toString b ++ ")"
  | .I64 i => "I64(" ++ toString i ++ ")"
  | .F64 f => "F64(" ++ toString f ++ ")"
  | .String s => "String(" ++ s ++ ")"
  | .Date d => "Date(" ++ toString d ++ ")"

/-- The `insert` row loop (lines 155-170): builds the single-row batch in
column order, skipping absent cells, and reports an error for every present
cell with no wire counterpart.  Returns (batch, reported errors). -/
def buildBatch : Row → List (String × Value) × List String
  | [] => ([], [])
  | (col, ocell) :: rest =>
    match ocell with
    | none => buildBatch rest
    | some c =>
      match cellToValue c with
      | some v => ((col, v) :: (buildBatch rest).1, (buildBatch rest).2)
      | none => ((buildBatch rest).1,
          ("field type " ++ cellDebugFmt c ++ " not supported") :: (buildBatch rest).2)

/-- `ClickHouseFdw::insert`.  `insertBatch` is the external
`client.insert(table, block)`.  Returns the new state, the submitted
(table, batch) if a client is present, and the reported errors. -/
def ClickHouseFdw.insert (st : ClickHouseFdw) (src : Row)
    (insertBatch : String → List (String × Value) → Except String Unit) :
    ClickHouseFdw × Option (String × List (String × Value)) × List String :=
  if st.hasClient then
    let bb := buildBatch src
    match insertBatch st.table bb.1 with
    | .ok _ => (st, some (st.table, bb.1), bb.2)
    | .error err => (st, some (st.table, bb.1), bb.2 ++ ["insert failed: " ++ err])
  else
    (st, none, [])

/-- The `update` SET-clause loop (lines 183-193): one assignment per column
of the new row, skipping the row-identifier column; a present cell renders
through the literal form, an absent cell renders as `col = null`. -/
def updateSets (rowid_col : String) (new_row : Row) : List String :=
  match new_row with
  | [] => []
  | (col, ocell) :: rest =>
    if col = rowid_col then updateSets rowid_col rest
    else
      (match ocell with
       | some cell => col ++ " = " ++ cellToQueryText cell
       | none => col ++ " = null") :: updateSets rowid_col rest

/-- `ClickHouseFdw::update`.  `execute` is the external
`client.execute(sql)`.  Returns the new state, the issued statement if a
client is present, and the reported errors. -/
def ClickHouseFdw.update (st : ClickHouseFdw) (rowid : Cell) (new_row : Row)
    (execute : String → Except String Unit) :
    ClickHouseFdw × Option String × List String :=
  if st.hasClient then
    let sql := "alter table " ++ st.table ++ " update " ++
      String.intercalate ", " (updateSets st.rowid_col new_row) ++
      " where " ++ st.rowid_col ++ " = " ++ cellToQueryText rowid
    match execute sql with
    | .ok _ => (st, some sql, [])
    | .error err => (st, some sql, ["update failed: " ++ err])
  else
    (st, none, [])

/-- `ClickHouseFdw::delete`.  `execute` is the external
`client.execute(sql)`. -/
def ClickHouseFdw.delete (st : ClickHouseFdw) (rowid : Cell)
    (execute : String → Except String Unit) :
    ClickHouseFdw × Option String × List String :=
  if st.hasClient then
    let sql := "alter table " ++ st.table ++ " delete where " ++
      st.rowid_col ++ " = " ++ cellToQueryText rowid
    match execute sql with
    | .ok _ => (st, some sql, [])
    | .error err => (st, some sql, ["delete failed: " ++ err])
  else
    (st, none, [])

/-- The state after `n` successive `iter_scan` calls. -/
def iterState : Nat → ClickHouseFdw → ClickHouseFdw
  | 0, st => st
  | n + 1, st => iterState n (st.iter_scan).1

/-- The outputs (yielded row, reported errors) of `n` successive `iter_scan`
calls, in call order. -/
def iterTrace : Nat → ClickHouseFdw → List (Option Row × List String)
  | 0, _ => []
  | n + 1, st => (st.iter_scan).2 :: iterTrace n (st.iter_scan).1

/-- The cursor invariant: inside a scan the read cursor never exceeds the row
count of the materialized block. -/
def cursorInv (st : ClickHouseFdw) : Bool :=
  match st.scan_blk with
  | some block => st.row_idx ≤ block.rows.length
  | none => true

/-! Helper lemmas. -/

/-- Escaping a character list introduces no lone quote character. -/
theorem quotesEscaped_escapeChars (l : List Char) :
    quotesEscaped (escapeChars l) = true := by
  induction l with
  | nil => rfl
  | cons c cs ih =>
    by_cases hc : c = '\x27'
    · simp only [escapeChars, hc, if_pos rfl, quotesEscaped]
      simpa using ih
    · rw [escapeChars, if_neg hc]
      rw [quotesEscaped.eq_def]
      simp only [if_neg hc]
      exact ih

/-- Unescaping steps over a non-quote head character. -/
theorem unescapeChars_cons_ne (c : Char) (l : List Char) (hc : ¬ c = '\x27') :
    unescapeChars (c :: l) = c :: unescapeChars l := by
  cases l with
  | nil => rfl
  | cons d ds => simp [unescapeChars, hc]

/-- Escaping is inverted exactly by unescaping: no information is lost or
altered by the quoting. -/
theorem unescapeChars_escapeChars (l : List Char) :
    unescapeChars (escapeChars l) = l := by
  induction l with
  | nil => rfl
  | cons c cs ih =>
    by_cases hc : c = '\x27'
    · subst hc
      simp [escapeChars, unescapeChars, ih]
    · rw [escapeChars, if_neg hc, unescapeChars_cons_ne c _ hc, ih]

/-- Indexing just past a prefix lands on the head of the suffix. -/
theorem list_idx_append_self {α : Type} (pre l : List α) :
    (pre ++ l)[pre.length]? = l[0]? := by
  induction pre with
  | nil => rfl
  | cons a as ih => simpa using ih

/-- Indexing at or past the length of a list yields nothing. -/
theorem list_idx_none_of_le {α : Type} (l : List α) (n : Nat)
    (h : l.length ≤ n) : l[n]? = none := by
  induction l generalizing n with
  | nil => simp
  | cons a as ih =>
    cases n with
    | zero => simp at h
    | succ m => simpa using ih m (by simpa using h)

/-- A successful index bounds the position by the length. -/
theorem list_lt_of_idx_some {α : Type} {l : List α} {n : Nat} {a : α}
    (h : l[n]? = some a) : n < l.length := by
  induction l generalizing n with
  | nil => simp at h
  | cons b bs ih =>
    cases n with
    | zero => simp
    | succ m => exact Nat.succ_lt_succ (ih (by simpa using h))

/-- A row that passes `rowOk` converts to exactly `convRow` of it. -/
theorem buildRow_of_rowOk (names : List String) (cells : List WireCell)
    (h : rowOk names cells = true) :
    buildRow (names.zip cells) = Except.ok (convRow names cells) := by
  cases hb : buildRow (names.zip cells) with
  | ok r => simp [convRow, hb]
  | error e => rw [rowOk, hb] at h; simp at h

/-- Every error `buildRow` can produce is the unsupported-type message for
some wire type name. -/
theorem buildRow_error_name (l : List (String × WireCell)) (e : String)
    (h : buildRow l = Except.error e) :
    ∃ t, e = "data type " ++ t ++ " is not supported" := by
  induction l with
  | nil => simp [buildRow] at h
  | cons p rest ih =>
    obtain ⟨n, wc⟩ := p
    rw [buildRow] at h
    cases hwc : convertCell wc with
    | error msg =>
      rw [hwc] at h
      simp at h
      cases wc with
      | unsupported t =>
        simp [convertCell] at hwc
        exact ⟨t, by rw [← h, ← hwc]⟩
      | u8 v => simp [convertCell] at hwc
      | f64 v => simp [convertCell] at hwc
      | i64 v => simp [convertCell] at hwc
      | str v => simp [convertCell] at hwc
    | ok c =>
      rw [hwc] at h
      cases hbr : buildRow rest with
      | ok r => rw [hbr] at h; simp at h
      | error e2 =>
        rw [hbr] at h
        simp at h
        exact ih (h ▸ hbr)

/-- Running the scan in two legs composes the states. -/
theorem iterState_add (a b : Nat) (st : ClickHouseFdw) :
    iterState (a + b) st = iterState b (iterState a st) := by
  induction a generalizing st with
  | zero => rw [Nat.zero_add]; rfl
  | succ n ih =>
    have h : n + 1 + b = (n + b) + 1 := by omega
    rw [h]
    show iterState (n + b) (st.iter_scan).1 = _
    rw [ih]
    rfl

/-- Running the scan in two legs concatenates the outputs. -/
theorem iterTrace_add (a b : Nat) (st : ClickHouseFdw) :
    iterTrace (a + b) st = iterTrace a st ++ iterTrace b (iterState a st) := by
  induction a generalizing st with
  | zero => rw [Nat.zero_add]; rfl
  | succ n ih =>
    have h : n + 1 + b = (n + b) + 1 := by omega
    rw [h]
    show (st.iter_scan).2 :: iterTrace (n + b) (st.iter_scan).1 = _
    rw [ih]
    rfl

/-- Once the cursor is at or past the row count, every further call yields
the end-of-data signal with no error and leaves the state unchanged. -/
theorem iterTrace_past_end (n : Nat) (st : ClickHouseFdw) (block : Block)
    (hb : st.scan_blk = some block) (h : block.rows.length ≤ st.row_idx) :
    iterTrace n st = List.replicate n ((none : Option Row), ([] : List String))
    ∧ iterState n st = st := by
  have hstep : st.iter_scan = (st, ((none : Option Row), ([] : List String))) := by
    simp [ClickHouseFdw.iter_scan, hb, list_idx_none_of_le block.rows st.row_idx h]
  induction n with
  | zero => exact ⟨rfl, rfl⟩
  | succ m ih =>
    constructor
    · show (st.iter_scan).2 :: iterTrace m (st.iter_scan).1 = _
      rw [hstep, List.replicate_succ]
      exact congrArg _ ih.1
    · show iterState m (st.iter_scan).1 = st
      rw [hstep]
      exact ih.2

/-- Iterating over a run of fully supported rows yields exactly those rows,
converted, in order, with no errors, and advances the cursor past them. -/
theorem iterTrace_good (good : List (List WireCell)) :
    ∀ (pre rest : List (List WireCell)) (st : ClickHouseFdw) (block : Block),
      st.scan_blk = some block → block.rows = pre ++ (good ++ rest) →
      st.row_idx = pre.length →
      (∀ cells ∈ good, rowOk block.colNames cells = true) →
      iterTrace good.length st
          = good.map (fun cells =>
              ((some (convRow block.colNames cells) : Option Row), ([] : List String)))
        ∧ iterState good.length st = { st with row_idx := pre.length + good.length } := by
  induction good with
  | nil =>
    intro pre rest st block hb hrows hidx hok
    refine ⟨rfl, ?_⟩
    show st = _
    have h0 : pre.length + ([] : List (List WireCell)).length = st.row_idx := by
      simp [hidx]
    rw [h0]
  | cons cells good' ih =>
    intro pre rest st block hb hrows hidx hok
    have hget : block.rows[st.row_idx]? = some cells := by
      rw [hrows, hidx, list_idx_append_self]
      simp
    have hbr : buildRow (block.colNames.zip cells)
        = Except.ok (convRow block.colNames cells) :=
      buildRow_of_rowOk _ _ (hok cells (by simp))
    have hstep : st.iter_scan
        = ({ st with row_idx := st.row_idx + 1 },
           ((some (convRow block.colNames cells) : Option Row), ([] : List String))) := by
      simp [ClickHouseFdw.iter_scan, hb, hget, hbr]
    have ihres := ih (pre ++ [cells]) rest { st with row_idx := st.row_idx + 1 } block
      hb (by rw [hrows]; simp) (by simp [hidx])
      (fun c hc => hok c (by simp [hc]))
    constructor
    · show (st.iter_scan).2 :: iterTrace good'.length (st.iter_scan).1 = _
      rw [hstep]
      show _ :: iterTrace good'.length { st with row_idx := st.row_idx + 1 } = _
      rw [ihres.1]
      rfl
    · show iterState good'.length (st.iter_scan).1 = _
      rw [hstep]
      show iterState good'.length { st with row_idx := st.row_idx + 1 } = _
      rw [ihres.2]
      have harith : (pre ++ [cells]).length + good'.length
          = pre.length + (good'.length + 1) := by
        simp
        omega
      rw [harith]
      rfl

/-- Unfolding step: an absent cell contributes nothing to the insert batch. -/
theorem buildBatch_cons_none (col : String) (rest : Row) :
    buildBatch ((col, none) :: rest) = buildBatch rest := by
  simp only [buildBatch]

/-- Unfolding step: a present cell contributes its wire value, or an
unsupported-cell error report. -/
theorem buildBatch_cons_some (col : String) (c : Cell) (rest : Row) :
    buildBatch ((col, some c) :: rest)
      = match cellToValue c with
        | some v => ((col, v) :: (buildBatch rest).1, (buildBatch rest).2)
        | none => ((buildBatch rest).1,
            ("field type " ++ cellDebugFmt c ++ " not supported") :: (buildBatch rest).2) := by
  simp only [buildBatch]

/-- Unfolding step for the SET-clause construction. -/
theorem updateSets_cons (rc col : String) (ocell : Option Cell) (rest : Row) :
    updateSets rc ((col, ocell) :: rest)
      = if col = rc then updateSets rc rest
        else (match ocell with
              | some cell => col ++ " = " ++ cellToQueryText cell
              | none => col ++ " = null") :: updateSets rc rest := by
  simp only [updateSets]

/-- Every column name in the built insert batch comes from the source row. -/
theorem buildBatch_names_subset (r : Row) :
    ∀ x ∈ (buildBatch r).1.map Prod.fst, x ∈ r.map Prod.fst := by
  induction r with
  | nil => intro x hx; simp [buildBatch] at hx
  | cons p rest ih =>
    obtain ⟨col, ocell⟩ := p
    intro x hx
    cases ocell with
    | none =>
      rw [buildBatch_cons_none] at hx
      simp only [List.map_cons, List.mem_cons]
      exact Or.inr (ih x hx)
    | some c =>
      rw [buildBatch_cons_some] at hx
      cases hcv : cellToValue c with
      | some v =>
        rw [hcv] at hx
        simp only [List.map_cons, List.mem_cons] at hx ⊢
        rcases hx with h | h
        · exact Or.inl h
        · exact Or.inr (ih x h)
      | none =>
        rw [hcv] at hx
        simp only [List.map_cons, List.mem_cons]
        exact Or.inr (ih x hx)

/-- A column whose cell is absent in the row is excluded from the insert
batch entirely (given row-unique column names). -/
theorem buildBatch_not_mem (r : Row) (c : String)
    (hmem : (c, (none : Option Cell)) ∈ r)
    (hnodup : (r.map Prod.fst).Nodup) :
    c ∉ (buildBatch r).1.map Prod.fst := by
  induction r with
  | nil => simp at hmem
  | cons p rest ih =>
    obtain ⟨col, ocell⟩ := p
    rw [List.map_cons, List.nodup_cons] at hnodup
    rcases List.mem_cons.mp hmem with heq | hmem2
    · injection heq with h1 h2
      subst h1
      rw [← h2, buildBatch_cons_none]
      intro hx
      exact hnodup.1 (buildBatch_names_subset rest c hx)
    · have hcrest : c ∈ rest.map Prod.fst :=
        List.mem_map.mpr ⟨(c, none), hmem2, rfl⟩
      have hne : col ≠ c := fun hcol => hnodup.1 (hcol ▸ hcrest)
      cases ocell with
      | none =>
        rw [buildBatch_cons_none]
        exact ih hmem2 hnodup.2
      | some cc =>
        rw [buildBatch_cons_some]
        cases hcv : cellToValue cc with
        | some v =>
          show c ∉ List.map Prod.fst ((col, v) :: (buildBatch rest).1)
          simp only [List.map_cons, List.mem_cons]
          intro hx
          rcases hx with h | h
          · exact hne h.symm
          · exact ih hmem2 hnodup.2 h
        | none => exact ih hmem2 hnodup.2

/-- A present cell with no wire counterpart puts its unsupported-cell error
message among the reported errors of the batch construction. -/
theorem buildBatch_err_mem (r : Row) (col : String) (cell : Cell)
    (hmem : (col, some cell) ∈ r) (hunsup : cellToValue cell = none) :
    ("field type " ++ cellDebugFmt cell ++ " not supported") ∈ (buildBatch r).2 := by
  induction r with
  | nil => simp at hmem
  | cons p rest ih =>
    obtain ⟨n, ocell⟩ := p
    rcases List.mem_cons.mp hmem with heq | hmem2
    · injection heq with h1 h2
      rw [← h2, buildBatch_cons_some, hunsup]
      simp
    · cases ocell with
      | none =>
        rw [buildBatch_cons_none]
        exact ih hmem2
      | some c2 =>
        rw [buildBatch_cons_some]
        cases hcv : cellToValue c2 with
        | some v => exact ih hmem2
        | none => exact List.mem_cons_of_mem _ (ih hmem2)

/-- A column absent in the new row and distinct from the row identifier
renders as an explicit null assignment in the SET clause. -/
theorem updateSets_null_mem (rc : String) (r : Row) (c : String)
    (hmem : (c, (none : Option Cell)) ∈ r) (hne : c ≠ rc) :
    (c ++ " = null") ∈ updateSets rc r := by
  induction r with
  | nil => simp at hmem
  | cons p rest ih =>
    obtain ⟨col, ocell⟩ := p
    rw [updateSets_cons]
    rcases List.mem_cons.mp hmem with heq | hmem2
    · injection heq with h1 h2
      subst h1
      rw [if_neg hne, ← h2]
      simp
    · by_cases hcol : col = rc
      · rw [if_pos hcol]
        exact ih hmem2
      · rw [if_neg hcol]
        cases ocell with
        | none => exact List.mem_cons_of_mem _ (ih hmem2)
        | some cc => exact List.mem_cons_of_mem _ (ih hmem2)

/-! Claim theorems. -/

/-- C1 counterexample: with an empty predicate set the deparser does not
produce the uppercase text `SELECT <columns> FROM <table>`; at columns
`["name", "age"]` and table `"people"` it produces the lowercase
`select name, age from people` instead. -/
theorem deparse_empty_quals_uppercase_cex :
    deparse [] ["name", "age"] [("table", "people")]
      ≠ some ("SELECT " ++ String.intercalate ", " ["name", "age"]
          ++ " FROM " ++ "people") := by
  decide

/-- C1 (amended): for every column list `C` and configured table name `T`,
deparsing with an empty predicate set produces exactly
`"select " ++ join(C, ", ") ++ " from " ++ T` — the claimed shape with
lowercase keywords — with the columns rendered in exactly the caller-supplied
order. -/
theorem deparse_empty_quals (C : List String) (T : String)
    (options : List (String × String))
    (h : List.lookup "table" options = some T) :
    deparse [] C options
      = some ("select " ++ String.intercalate ", " C ++ " from " ++ T) := by
  simp [deparse, h]

/-- Witness for C1 at columns `["name", "age"]`, table `"people"`. -/
theorem deparse_empty_quals_witness :
    deparse [] ["name", "age"] [("table", "people")]
      = some ("select " ++ String.intercalate ", " ["name", "age"]
          ++ " from " ++ "people") :=
  deparse_empty_quals ["name", "age"] "people" [("table", "people")] rfl

/-- C2 counterexample: the scenario predicates `[(age, ">", 30)]`, columns
`["name", "age"]`, table `"people"` do not deparse to the uppercase
`SELECT name, age FROM people WHERE age > 30` (the code emits the lowercase
`select name, age from people where age > 30`). -/
theorem deparse_scenario_uppercase_cex :
    deparse [Qual.mk "age" ">" (Cell.I64 30)] ["name", "age"]
        [("table", "people")]
      ≠ some "SELECT name, age FROM people WHERE age > 30" := by
  decide

/-- C2 (amended): for every non-empty predicate list, the deparsed query is
`select <columns> from <table> where <cond>` (lowercase keywords) in which
each predicate renders as `column operator literal` and the n renderings are
joined by the single connective `" and "` — hence n-1 connective occurrences
structurally; the rendering list has exactly n elements. -/
theorem deparse_conjunction (q : Qual) (qs : List Qual) (C : List String)
    (T : String) (options : List (String × String))
    (h : List.lookup "table" options = some T) :
    deparse (q :: qs) C options
      = some ("select " ++ String.intercalate ", " C ++ " from " ++ T
          ++ " where "
          ++ String.intercalate " and " ((q :: qs).map Qual.deparse))
    ∧ Qual.deparse q
        = q.field ++ " " ++ q.operator ++ " " ++ cellToQueryText q.value
    ∧ ((q :: qs).map Qual.deparse).length = qs.length + 1 := by
  refine ⟨?_, rfl, by simp⟩
  simp [deparse, h]

/-- Witness for C2 at the scenario input: one predicate `age > 30`. -/
theorem deparse_conjunction_witness :
    deparse [Qual.mk "age" ">" (Cell.I64 30)] ["name", "age"]
        [("table", "people")]
      = some ("select " ++ String.intercalate ", " ["name", "age"]
          ++ " from " ++ "people" ++ " where "
          ++ String.intercalate " and "
              ([Qual.mk "age" ">" (Cell.I64 30)].map Qual.deparse))
    ∧ Qual.deparse (Qual.mk "age" ">" (Cell.I64 30))
        = "age" ++ " " ++ ">" ++ " " ++ cellToQueryText (Cell.I64 30)
    ∧ (([Qual.mk "age" ">" (Cell.I64 30)]).map Qual.deparse).length = 0 + 1 :=
  deparse_conjunction (Qual.mk "age" ">" (Cell.I64 30)) [] ["name", "age"]
    "people" [("table", "people")] rfl

/-- C6: literal rendering for query embedding — a text literal is rendered
quoted, with every quote character escaped (no lone quote remains, and
unescaping recovers the original text exactly, so a string value cannot
alter the statement structure), while numeric and boolean literals render
unquoted as their plain text forms. -/
theorem literal_rendering_escaped (s : String) (n : Int) (b : Bool) :
    cellToQueryText (Cell.String s) = "\x27" ++ escapeString s ++ "\x27"
    ∧ quotesEscaped (escapeString s).toList = true
    ∧ unescapeChars (escapeString s).toList = s.toList
    ∧ cellToQueryText (Cell.I64 n) = toString n
    ∧ cellToQueryText (Cell.Bool b) = (if b then "true" else "false") :=
  ⟨rfl, quotesEscaped_escapeChars s.toList, by
    rw [show (escapeString s).toList = escapeChars s.toList from rfl,
      unescapeChars_escapeChars], rfl, rfl⟩

/-- C7: plan/size returns `(0, 0)` when no client handle is available; when
the query succeeds it resolves the table binding, stores the block, and
returns the block's row count together with a width of 8 bytes per returned
column (column-count-proportional, not a measured size). -/
theorem get_rel_size_spec (st : ClickHouseFdw) (quals : List Qual)
    (columns : List String) (options : List (String × String))
    (runQuery : String → Except String Block) :
    (st.hasClient = false →
      st.get_rel_size quals columns options runQuery = some (st, (0, 0), []))
    ∧ (∀ t r sql block, st.hasClient = true →
        List.lookup "table" options = some t →
        List.lookup "rowid_column" options = some r →
        deparse quals columns options = some sql →
        runQuery sql = Except.ok block →
        st.get_rel_size quals columns options runQuery
          = some ({ st with table := t, rowid_col := r, scan_blk := some block },
              ((block.rows.length : Int), ((block.colNames.length : Int) * 8)),
              [])) := by
  constructor
  · intro h
    simp [ClickHouseFdw.get_rel_size, h]
  · intro t r sql block hc ht hr hd hq
    simp [ClickHouseFdw.get_rel_size, hc, ht, hr, hd, hq]

/-- Witness for C7: a client-less state returns `(0, 0)`; a state with a
client and a successful one-row two-column query returns `(1, 16)` and
stores the block. -/
theorem get_rel_size_spec_witness :
    (ClickHouseFdw.get_rel_size ⟨false, "", "", none, 0⟩ [] ["a", "b"]
        [("table", "t"), ("rowid_column", "id")]
        (fun _ => Except.ok ⟨["a", "b"], [[WireCell.u8 1, WireCell.str "x"]]⟩))
      = some (⟨false, "", "", none, 0⟩, (0, 0), [])
    ∧ (ClickHouseFdw.get_rel_size ⟨true, "", "", none, 3⟩ [] ["a", "b"]
        [("table", "t"), ("rowid_column", "id")]
        (fun _ => Except.ok ⟨["a", "b"], [[WireCell.u8 1, WireCell.str "x"]]⟩))
      = some ({ (⟨true, "", "", none, 3⟩ : ClickHouseFdw) with
            table := "t", rowid_col := "id",
            scan_blk := some ⟨["a", "b"], [[WireCell.u8 1, WireCell.str "x"]]⟩ },
          (((⟨["a", "b"], [[WireCell.u8 1, WireCell.str "x"]]⟩ : Block).rows.length : Int),
            (((⟨["a", "b"], [[WireCell.u8 1, WireCell.str "x"]]⟩ : Block).colNames.length : Int) * 8)),
          []) :=
  ⟨(get_rel_size_spec ⟨false, "", "", none, 0⟩ [] ["a", "b"]
      [("table", "t"), ("rowid_column", "id")]
      (fun _ => Except.ok ⟨["a", "b"], [[WireCell.u8 1, WireCell.str "x"]]⟩)).1 rfl,
   (get_rel_size_spec ⟨true, "", "", none, 3⟩ [] ["a", "b"]
      [("table", "t"), ("rowid_column", "id")]
      (fun _ => Except.ok ⟨["a", "b"], [[WireCell.u8 1, WireCell.str "x"]]⟩)).2
    "t" "id" "select a, b from t" ⟨["a", "b"], [[WireCell.u8 1, WireCell.str "x"]]⟩
    rfl rfl rfl (by decide) rfl⟩

/-- C10: when no client handle is present, insert, update and delete each
return without issuing any remote statement and without reporting any error,
leaving the adapter state entirely unchanged. -/
theorem no_session_writes_noop (st : ClickHouseFdw) (src : Row) (rowid : Cell)
    (insertBatch : String → List (String × Value) → Except String Unit)
    (execute : String → Except String Unit)
    (h : st.hasClient = false) :
    st.insert src insertBatch = (st, none, [])
    ∧ st.update rowid src execute = (st, none, [])
    ∧ st.delete rowid execute = (st, none, []) := by
  refine ⟨?_, ?_, ?_⟩ <;>
    simp [ClickHouseFdw.insert, ClickHouseFdw.update, ClickHouseFdw.delete, h]

/-- Witness for C10 at a concrete client-less state and row. -/
theorem no_session_writes_noop_witness :
    ClickHouseFdw.insert ⟨false, "t", "id", none, 0⟩
        [("a", some (Cell.I64 1))] (fun _ _ => Except.ok ())
      = (⟨false, "t", "id", none, 0⟩, none, [])
    ∧ ClickHouseFdw.update ⟨false, "t", "id", none, 0⟩ (Cell.I64 7)
        [("a", some (Cell.I64 1))] (fun _ => Except.ok ())
      = (⟨false, "t", "id", none, 0⟩, none, [])
    ∧ ClickHouseFdw.delete ⟨false, "t", "id", none, 0⟩ (Cell.I64 7)
        (fun _ => Except.ok ())
      = (⟨false, "t", "id", none, 0⟩, none, []) :=
  no_session_writes_noop ⟨false, "t", "id", none, 0⟩ [("a", some (Cell.I64 1))]
    (Cell.I64 7) (fun _ _ => Except.ok ()) (fun _ => Except.ok ()) rfl

/-- C5: after plan/size has materialized a block whose rows all carry
supported wire types and begin-scan has reset the cursor, iterating
rowCount times yields exactly the converted rows in order with no errors,
the next call yields the end-of-data signal (not an error), and every
further call still yields end-of-data. -/
theorem scan_trace_end_of_data (st : ClickHouseFdw) (block : Block) (m : Nat)
    (hb : st.scan_blk = some block)
    (hok : ∀ cells ∈ block.rows, rowOk block.colNames cells = true) :
    iterTrace (block.rows.length + (1 + m)) st.begin_scan
      = block.rows.map (fun cells =>
          ((some (convRow block.colNames cells) : Option Row), ([] : List String)))
        ++ List.replicate (1 + m) ((none : Option Row), ([] : List String)) := by
  have hb0 : st.begin_scan.scan_blk = some block := hb
  have hgood := iterTrace_good block.rows [] [] st.begin_scan block hb0
    (by simp) rfl hok
  rw [iterTrace_add block.rows.length (1 + m) st.begin_scan, hgood.1, hgood.2]
  simp only [List.length_nil]
  have hpast := iterTrace_past_end (1 + m)
    ({ st.begin_scan with row_idx := 0 + block.rows.length }) block hb0 (by simp)
  rw [hpast.1]

/-- Witness for C5: a one-row block is scanned to one row, then end-of-data. -/
theorem scan_trace_end_of_data_witness :
    iterTrace ((⟨["c1"], [[WireCell.i64 7]]⟩ : Block).rows.length + (1 + 0))
        (ClickHouseFdw.begin_scan ⟨true, "t", "id",
          some ⟨["c1"], [[WireCell.i64 7]]⟩, 5⟩)
      = (⟨["c1"], [[WireCell.i64 7]]⟩ : Block).rows.map (fun cells =>
          ((some (convRow (⟨["c1"], [[WireCell.i64 7]]⟩ : Block).colNames cells)
              : Option Row), ([] : List String)))
        ++ List.replicate (1 + 0) ((none : Option Row), ([] : List String)) :=
  scan_trace_end_of_data ⟨true, "t", "id", some ⟨["c1"], [[WireCell.i64 7]]⟩, 5⟩
    ⟨["c1"], [[WireCell.i64 7]]⟩ 0 rfl (by decide)

/-- One iterate call on a state whose current row fails to convert yields no
row and exactly the conversion error, leaving the state unchanged. -/
theorem iter_scan_error_step (st : ClickHouseFdw) (block : Block)
    (bad : List WireCell) (e : String)
    (hb : st.scan_blk = some block)
    (hg : block.rows[st.row_idx]? = some bad)
    (hbad : buildRow (block.colNames.zip bad) = Except.error e) :
    st.iter_scan = (st, ((none : Option Row), [e])) := by
  simp [ClickHouseFdw.iter_scan, hb, hg, hbad]

/-- C3: if the rows before position k all convert and the row at position k
fails to convert (its first unsupported cell produces error e), then scanning
from the start yields the k prior rows unchanged and, at the failing
position, no row (the end-of-data signal) together with exactly one reported
error — and every such error names the offending wire type. -/
theorem iter_scan_unsupported_aborts (st : ClickHouseFdw) (block : Block)
    (pre rest : List (List WireCell)) (bad : List WireCell) (e : String)
    (hb : st.scan_blk = some block)
    (hrows : block.rows = pre ++ (bad :: rest))
    (hok : ∀ cells ∈ pre, rowOk block.colNames cells = true)
    (hbad : buildRow (block.colNames.zip bad) = Except.error e) :
    iterTrace (pre.length + 1) st.begin_scan
      = pre.map (fun cells =>
          ((some (convRow block.colNames cells) : Option Row), ([] : List String)))
        ++ [((none : Option Row), [e])]
    ∧ ∃ t, e = "data type " ++ t ++ " is not supported" := by
  have hb0 : st.begin_scan.scan_blk = some block := hb
  have hgood := iterTrace_good pre [] (bad :: rest) st.begin_scan block hb0
    (by rw [hrows]; simp) rfl hok
  refine ⟨?_, buildRow_error_name _ e hbad⟩
  rw [iterTrace_add pre.length 1 st.begin_scan, hgood.1]
  have hs1 : (iterState pre.length st.begin_scan).scan_blk = some block := by
    rw [hgood.2]
    exact hb
  have hi1 : (iterState pre.length st.begin_scan).row_idx = pre.length := by
    rw [hgood.2]
    simp
  have hget2 : block.rows[(iterState pre.length st.begin_scan).row_idx]?
      = some bad := by
    rw [hi1, hrows, list_idx_append_self]
    simp
  have hstep := iter_scan_error_step (iterState pre.length st.begin_scan)
    block bad e hs1 hget2 hbad
  have h1 : iterTrace 1 (iterState pre.length st.begin_scan)
      = [((none : Option Row), [e])] := by
    simp [iterTrace, hstep]
  rw [h1]

/-- Witness for C3: a block with one good row then a row carrying an
unsupported `Date` cell yields the good row, then end-of-data with exactly
the one unsupported-type error naming `Date`. -/
theorem iter_scan_unsupported_aborts_witness :
    iterTrace (([[WireCell.i64 1, WireCell.str "x"]]
          : List (List WireCell)).length + 1)
        (ClickHouseFdw.begin_scan ⟨true, "t", "id",
          some ⟨["a", "b"], [[WireCell.i64 1, WireCell.str "x"],
            [WireCell.i64 2, WireCell.unsupported "Date"]]⟩, 3⟩)
      = ([[WireCell.i64 1, WireCell.str "x"]] : List (List WireCell)).map
          (fun cells =>
            ((some (convRow (⟨["a", "b"], [[WireCell.i64 1, WireCell.str "x"],
                [WireCell.i64 2, WireCell.unsupported "Date"]]⟩
                : Block).colNames cells) : Option Row), ([] : List String)))
        ++ [((none : Option Row), ["data type Date is not supported"])]
    ∧ ∃ t, "data type Date is not supported"
        = "data type " ++ t ++ " is not supported" :=
  iter_scan_unsupported_aborts
    ⟨true, "t", "id", some ⟨["a", "b"], [[WireCell.i64 1, WireCell.str "x"],
      [WireCell.i64 2, WireCell.unsupported "Date"]]⟩, 3⟩
    ⟨["a", "b"], [[WireCell.i64 1, WireCell.str "x"],
      [WireCell.i64 2, WireCell.unsupported "Date"]]⟩
    [[WireCell.i64 1, WireCell.str "x"]] []
    [WireCell.i64 2, WireCell.unsupported "Date"]
    "data type Date is not supported"
    rfl rfl (by decide) (by rfl)

/-- C4: for a row with an absent cell at column c (c not the row identifier,
unique column names), insert submits a batch that excludes column c entirely,
while update renders c in its SET clause as the explicit assignment
`c = null` (skipping only the row-identifier column), inside the issued
`alter table ... update ... where` statement. -/
theorem absent_cell_insert_update_asymmetry (st : ClickHouseFdw) (row : Row)
    (c : String) (rowid : Cell)
    (insertBatch : String → List (String × Value) → Except String Unit)
    (execute : String → Except String Unit)
    (hclient : st.hasClient = true)
    (hmem : (c, (none : Option Cell)) ∈ row)
    (hnodup : (row.map Prod.fst).Nodup)
    (hrc : c ≠ st.rowid_col) :
    (st.insert row insertBatch).2.1 = some (st.table, (buildBatch row).1)
    ∧ c ∉ (buildBatch row).1.map Prod.fst
    ∧ (c ++ " = null") ∈ updateSets st.rowid_col row
    ∧ (st.update rowid row execute).2.1
        = some ("alter table " ++ st.table ++ " update "
            ++ String.intercalate ", " (updateSets st.rowid_col row)
            ++ " where " ++ st.rowid_col ++ " = " ++ cellToQueryText rowid) := by
  refine ⟨?_, buildBatch_not_mem row c hmem hnodup,
    updateSets_null_mem st.rowid_col row c hmem hrc, ?_⟩
  · simp only [ClickHouseFdw.insert, hclient, if_true]
    cases h : insertBatch st.table (buildBatch row).1 with
    | ok u => simp [h]
    | error err => simp [h]
  · simp only [ClickHouseFdw.update, hclient, if_true]
    cases h : execute ("alter table " ++ st.table ++ " update "
        ++ String.intercalate ", " (updateSets st.rowid_col row)
        ++ " where " ++ st.rowid_col ++ " = " ++ cellToQueryText rowid) with
    | ok u => simp [h]
    | error err => simp [h]

/-- Witness for C4: row with absent `name` and present `age`; insert's batch
has no `name` column, update's SET clause contains `name = null`. -/
theorem absent_cell_insert_update_asymmetry_witness :
    (ClickHouseFdw.insert ⟨true, "t", "id", none, 0⟩
        [("name", none), ("age", some (Cell.I64 3))] (fun _ _ => Except.ok ())).2.1
      = some ("t", (buildBatch [("name", none), ("age", some (Cell.I64 3))]).1)
    ∧ "name" ∉ (buildBatch
        [("name", none), ("age", some (Cell.I64 3))]).1.map Prod.fst
    ∧ ("name" ++ " = null")
        ∈ updateSets "id" [("name", none), ("age", some (Cell.I64 3))]
    ∧ (ClickHouseFdw.update ⟨true, "t", "id", none, 0⟩ (Cell.I64 1)
        [("name", none), ("age", some (Cell.I64 3))] (fun _ => Except.ok ())).2.1
      = some ("alter table " ++ "t" ++ " update "
          ++ String.intercalate ", "
              (updateSets "id" [("name", none), ("age", some (Cell.I64 3))])
          ++ " where " ++ "id" ++ " = " ++ cellToQueryText (Cell.I64 1)) :=
  absent_cell_insert_update_asymmetry ⟨true, "t", "id", none, 0⟩
    [("name", none), ("age", some (Cell.I64 3))] "name" (Cell.I64 1)
    (fun _ _ => Except.ok ()) (fun _ => Except.ok ())
    rfl (List.mem_cons_self _ _) (by decide) (by decide)

/-- C8: a present cell whose variant has no wire counterpart makes insert
report the unsupported-cell error message to the caller; the error is never
silent. -/
theorem insert_unsupported_cell_reported (st : ClickHouseFdw) (row : Row)
    (col : String) (cell : Cell)
    (insertBatch : String → List (String × Value) → Except String Unit)
    (hclient : st.hasClient = true)
    (hmem : (col, some cell) ∈ row)
    (hunsup : cellToValue cell = none) :
    ("field type " ++ cellDebugFmt cell ++ " not supported")
      ∈ (st.insert row insertBatch).2.2 := by
  have hberr := buildBatch_err_mem row col cell hmem hunsup
  simp only [ClickHouseFdw.insert, hclient, if_true]
  cases h : insertBatch st.table (buildBatch row).1 with
  | ok u => simp only [h]; exact hberr
  | error err => simp only [h]; exact List.mem_append_left _ hberr

/-- Witness for C8: inserting a row holding a `Date` cell (no wire
counterpart) reports the unsupported-cell error. -/
theorem insert_unsupported_cell_reported_witness :
    ("field type " ++ cellDebugFmt (Cell.Date 0) ++ " not supported")
      ∈ (ClickHouseFdw.insert ⟨true, "t", "id", none, 0⟩
          [("a", some (Cell.Date 0))] (fun _ _ => Except.ok ())).2.2 :=
  insert_unsupported_cell_reported ⟨true, "t", "id", none, 0⟩
    [("a", some (Cell.Date 0))] "a" (Cell.Date 0) (fun _ _ => Except.ok ())
    rfl (List.mem_cons_self _ _) rfl

/-- C9: the cursor invariant (cursor never exceeds the row count of the
materialized block) is preserved by iterate, and (re)established by
begin-scan and end-scan: iterate advances the cursor only when a row exists
at the current position. -/
theorem cursor_invariant_preserved (st : ClickHouseFdw)
    (h : cursorInv st = true) :
    cursorInv (st.iter_scan).1 = true
    ∧ cursorInv st.begin_scan = true
    ∧ cursorInv st.end_scan = true := by
  refine ⟨?_, ?_, ?_⟩
  · cases hb : st.scan_blk with
    | none => simpa [ClickHouseFdw.iter_scan, hb] using h
    | some block =>
      cases hg : block.rows[st.row_idx]? with
      | none => simpa [ClickHouseFdw.iter_scan, hb, hg] using h
      | some cells =>
        cases hbr : buildRow (block.colNames.zip cells) with
        | error e => simpa [ClickHouseFdw.iter_scan, hb, hg, hbr] using h
        | ok r =>
          have hlt := list_lt_of_idx_some hg
          simp [ClickHouseFdw.iter_scan, hb, hg, hbr, cursorInv]
          omega
  · cases hb : st.scan_blk with
    | none => simp [cursorInv, ClickHouseFdw.begin_scan, hb]
    | some block => simp [cursorInv, ClickHouseFdw.begin_scan, hb]
  · simp [cursorInv, ClickHouseFdw.end_scan]

/-- Witness for C9 at a scanning state with cursor 0 on a one-row block. -/
theorem cursor_invariant_preserved_witness :
    cursorInv ((ClickHouseFdw.iter_scan
        ⟨true, "t", "id", some ⟨["a"], [[WireCell.i64 1]]⟩, 0⟩).1) = true
    ∧ cursorInv (ClickHouseFdw.begin_scan
        ⟨true, "t", "id", some ⟨["a"], [[WireCell.i64 1]]⟩, 0⟩) = true
    ∧ cursorInv (ClickHouseFdw.end_scan
        ⟨true, "t", "id", some ⟨["a"], [[WireCell.i64 1]]⟩, 0⟩) = true :=
  cursor_invariant_preserved
    ⟨true, "t", "id", some ⟨["a"], [[WireCell.i64 1]]⟩, 0⟩ (by decide)
